import Mathlib

/-!
# Watch: one-shot and continuous watches of go-etcd (`etcd/watch.go`)

A shallow embedding of `Watch`, `WatchAll`, `watch` and `watchOnce`.

* `uint64` values (`waitIndex`, `ModifiedIndex`) are natural numbers; the code
  only copies and compares them with `0`, so no arithmetic can wrap around.
* The store behind `c.get` is a state-passing function on a state type `σ`.
* The `select` of `watchOnce` is resolved by a `Race` value supplied by the
  world: which of its cases are ready at the moment it commits and, when both
  are, which one the random choice of `select` takes.
* The endless `for` loop of `watch` runs on fuel; a run that has used up its
  fuel has not returned (`result = none`).
* A run records, in program order, the requests handed to `c.get`, the value
  every `watchOnce` call returned, and the responses sent on `receiver`.
* `c.get` is taken to return, and a send on `receiver` to be received; a fetch
  or a send that blocks for ever is outside the model.
* `logger.Debugf` has no effect on any of these and is left out.
-/

namespace Etcd

/-- Go `error` values that reach the watch code: the package variable
`ErrWatchStoppedByUser`, or any other error, identified by its message. -/
inductive Error where
  | ErrWatchStoppedByUser
  | other (msg : String)
deriving DecidableEq

/-- Modelled from the spec: the `Response` type is declared outside `watch.go`;
a change event carries the action, the modified key, its value and its new
version `ModifiedIndex`. Only `ModifiedIndex` is read by the watch code. -/
structure Response where
  Action : String
  Key : String
  Value : String
  ModifiedIndex : Nat
deriving DecidableEq

/-- Values stored in an `options` map by the watch code (`interface{}` holding a
`bool` or a `uint64`). -/
inductive OptionValue where
  | bool (b : Bool)
  | uint64 (n : Nat)
deriving DecidableEq

/-- Modelled from the spec: the `options` map type is declared outside
`watch.go`; it maps option names to values. Here: an association list with at
most one entry per name. -/
abbrev options := List (String × OptionValue)

/-- Map assignment `o[name] = v`: overwrite the entry for `name`, or add it. -/
def options.set : options → String → OptionValue → options
  | [], name, v => [(name, v)]
  | (k, x) :: rest, name, v =>
      if k = name then (k, v) :: rest else (k, x) :: options.set rest name v

/-- Map lookup `o[name]`; `none` when the map has no entry for `name`. -/
def options.get : options → String → Option OptionValue
  | [], _ => none
  | (k, x) :: rest, name => if k = name then some x else options.get rest name

/-- A Go channel value; `Option Chan` is a channel variable that may be `nil`. -/
structure Chan where
  id : Nat
deriving DecidableEq

/-- What `c.get` returns: `(resp, err)`, either of which may be `nil`. -/
abbrev FetchResult := Option Response × Option Error

/-- A request handed to `c.get`: the key and the options. -/
abbrev Request := String × options

/-- How the `select` of `watchOnce` finds its cases when it commits. -/
inductive Race where
  /-- The stop channel is ready and the fetch has not resolved. -/
  | stopFirst
  /-- The goroutine is ready to send and the stop channel is not ready. -/
  | fetchFirst
  /-- Both are ready when the `select` commits. `stopFiredFirst` tells which of
  the two became ready first (say, a stop channel closed before the call and a
  fetch that resolved before the `select` was reached); the `select` cannot see
  it and picks one case at random (`pickStop = true`: the stop case). -/
  | both (stopFiredFirst : Bool) (pickStop : Bool)
deriving DecidableEq

/-- The world a client runs in: `get` is `c.get` as a state-passing function,
`race` tells how the `select` of a `watchOnce` started in a state resolves. -/
structure World (σ : Type) where
  get : σ → String → options → FetchResult × σ
  race : σ → Race

/-- The options built by the goroutine of `watchOnce` (lines 63-71). -/
def watchOptions (waitIndex : Nat) (recursive : Bool) : options :=
  let o0 : options := [("wait", OptionValue.bool true)]
  let o1 : options := if waitIndex > 0 then o0.set "waitIndex" (OptionValue.uint64 waitIndex) else o0
  if recursive then o1.set "recursive" (OptionValue.bool true) else o1

/-- The channel on which the goroutine of `watchOnce` offers its first send. -/
inductive Send where
  | errChan (err : Error)
  | respChan (resp : Option Response)
deriving DecidableEq

/-- Lines 75-79: with a non-nil error the goroutine first sends it on `errChan`
(and reaches `respChan <- resp` only after that send was received); otherwise
it sends `resp` on `respChan`. -/
def goroutineSend (fr : FetchResult) : Send :=
  match fr.2 with
  | some err => Send.errChan err
  | none => Send.respChan fr.1

/-- Whether the `select` takes its `<-stop` case. A nil channel is never ready. -/
def stopSelected (stop : Option Chan) (race : Race) : Bool :=
  match stop with
  | none => false
  | some _ =>
    match race with
    | Race.stopFirst => true
    | Race.fetchFirst => false
    | Race.both _ pickStop => pickStop

/-- Whether the stop channel fired before the fetch resolved. -/
def stopFiredBeforeFetch (race : Race) : Bool :=
  match race with
  | Race.stopFirst => true
  | Race.fetchFirst => false
  | Race.both stopFiredFirst _ => stopFiredFirst

/-- The `select` statement of `watchOnce` (lines 82-89). -/
def selectResult (stop : Option Chan) (race : Race) (send : Send) : FetchResult :=
  if stopSelected stop race then (none, some Error.ErrWatchStoppedByUser)
  else
    match send with
    | Send.respChan resp => (resp, none)
    | Send.errChan err => (none, some err)

/-- What one call of `watchOnce` does: the request it issued, the value it
returned and the state of the world afterwards. -/
structure Once (σ : Type) where
  request : Request
  ret : FetchResult
  state : σ

/-- The function `watchOnce` (lines 57-90). The goroutine is started in every
call, so the request is issued whatever the `select` then does. -/
def watchOnce {σ : Type} (c : World σ) (s : σ) (key : String) (waitIndex : Nat)
    (recursive : Bool) (stop : Option Chan) : Once σ :=
  let opts := watchOptions waitIndex recursive
  let fetched := c.get s key opts
  { request := (key, opts)
    ret := selectResult stop (c.race s) (goroutineSend fetched.1)
    state := fetched.2 }

/-- A run of `watch`: `result` is the returned pair (`none` while the loop is
still going), `requests` the requests handed to `c.get`, `oneShots` the values
returned by the `watchOnce` calls, `received` the responses sent on `receiver`,
all in program order. -/
structure Run (σ : Type) where
  result : Option FetchResult
  requests : List Request
  oneShots : List FetchResult
  received : List Response
  state : σ

/-- The `for` loop of `watch` (lines 41-49), on fuel. -/
def watchLoop {σ : Type} (c : World σ) (key : String) (recursive : Bool) (stop : Option Chan) :
    Nat → σ → Nat → List Request → List FetchResult → List Response → Run σ
  | 0, s, _, reqs, outs, recv =>
      { result := none, requests := reqs, oneShots := outs, received := recv, state := s }
  | fuel + 1, s, waitIndex, reqs, outs, recv =>
      let o := watchOnce c s key waitIndex recursive stop
      match o.ret.1 with
      | some resp =>
          watchLoop c key recursive stop fuel o.state resp.ModifiedIndex
            (reqs ++ [o.request]) (outs ++ [o.ret]) (recv ++ [resp])
      | none =>
          { result := some (none, o.ret.2), requests := reqs ++ [o.request],
            oneShots := outs ++ [o.ret], received := recv, state := o.state }

/-- The function `watch` (lines 36-53). -/
def watch {σ : Type} (c : World σ) (fuel : Nat) (s : σ) (key : String) (waitIndex : Nat)
    (recursive : Bool) (receiver : Option Chan) (stop : Option Chan) : Run σ :=
  match receiver with
  | none =>
      let o := watchOnce c s key waitIndex recursive stop
      { result := some o.ret, requests := [o.request], oneShots := [o.ret], received := [],
        state := o.state }
  | some _ => watchLoop c key recursive stop fuel s waitIndex [] [] []

/-- The method `WatchAll` (lines 21-23). -/
def WatchAll {σ : Type} (c : World σ) (fuel : Nat) (s : σ) (key : String) (waitIndex : Nat)
    (receiver : Option Chan) (stop : Option Chan) : Run σ :=
  watch c fuel s key waitIndex true receiver stop

/-- The method `Watch` (lines 32-34). -/
def Watch {σ : Type} (c : World σ) (fuel : Nat) (s : σ) (key : String) (waitIndex : Nat)
    (receiver : Option Chan) (stop : Option Chan) : Run σ :=
  watch c fuel s key waitIndex false receiver stop

/-- A world that replays a script: each `watchOnce` call consumes one entry,
the race and the fetch result of that call. An exhausted script answers with an
error. -/
def replay : World (List (Race × FetchResult)) where
  get := fun s _ _ =>
    match s with
    | [] => ((none, some (Error.other "script exhausted")), [])
    | step :: rest => (step.2, rest)
  race := fun s =>
    match s with
    | [] => Race.fetchFirst
    | step :: _ => step.1

/-- A response with the given version. -/
def event (modifiedIndex : Nat) : Response :=
  { Action := "set", Key := "/a", Value := "v", ModifiedIndex := modifiedIndex }

/-- What `c.get` returns to the goroutine of a `watchOnce` call. -/
def fetched {σ : Type} (c : World σ) (s : σ) (key : String) (waitIndex : Nat)
    (recursive : Bool) : FetchResult :=
  (c.get s key (watchOptions waitIndex recursive)).1

/-- A script of one call: the fetch returns version 6 and the stop channel is
not ready. -/
def oneEvent : List (Race × FetchResult) := [(Race.fetchFirst, (some (event 6), none))]

/-- A script of two calls whose fetches return versions 0 and 7. -/
def zeroThenSeven : List (Race × FetchResult) :=
  [(Race.fetchFirst, (some (event 0), none)), (Race.fetchFirst, (some (event 7), none))]

/-- A script of two calls whose fetches return versions 6 and 3. -/
def sixThenThree : List (Race × FetchResult) :=
  [(Race.fetchFirst, (some (event 6), none)), (Race.fetchFirst, (some (event 3), none))]

/-- A script of three calls whose fetches return versions 6, 6 and 9. -/
def sixSixNine : List (Race × FetchResult) :=
  [(Race.fetchFirst, (some (event 6), none)), (Race.fetchFirst, (some (event 6), none)),
    (Race.fetchFirst, (some (event 9), none))]

/-- The lower bound a request carries: its `waitIndex` entry, 0 when it has none. -/
def lowerBound (opts : options) : Nat :=
  match opts.get "waitIndex" with
  | some (OptionValue.uint64 bound) => bound
  | _ => 0

/-- A store whose state counts the fetches served: a fetch returns the larger of
the requested lower bound and the count, and the stop channel never fires. -/
def counterStore : World Nat where
  get := fun s _ opts => ((some (event (max (lowerBound opts) s)), none), s + 1)
  race := fun _ => Race.fetchFirst

/-- The `select` took the `respChan` case: the fetch gave a response and no error,
and that response is returned with a nil error. -/
def EventOutcome (stopped : Bool) (fr ret : FetchResult) : Prop :=
  stopped = false ∧ fr.2 = none ∧ ∃ resp, fr.1 = some resp ∧ ret = (some resp, none)

/-- The `select` took the `errChan` case: the fetch gave an error, and that error
is returned with a nil response. -/
def FetchErrorOutcome (stopped : Bool) (fr ret : FetchResult) : Prop :=
  stopped = false ∧ ∃ err, fr.2 = some err ∧ ret = (none, some err)

/-- The `select` took the `stop` case: `ErrWatchStoppedByUser` is returned with a
nil response. -/
def StoppedOutcome (stopped : Bool) (ret : FetchResult) : Prop :=
  stopped = true ∧ ret = (none, some Error.ErrWatchStoppedByUser)

/-! ## The options of a request -/

theorem options_get_set_same (o : options) (name : String) (v : OptionValue) :
    (o.set name v).get name = some v := by
  induction o with
  | nil => simp [options.set, options.get]
  | cons hd tl ih =>
    obtain ⟨k, x⟩ := hd
    by_cases hk : k = name
    · simp [options.set, options.get, hk]
    · simp [options.set, options.get, hk, ih]

theorem options_get_set_other (o : options) (name other : String) (v : OptionValue)
    (hne : other ≠ name) : (o.set name v).get other = o.get other := by
  have hne2 : ¬ name = other := fun h => hne h.symm
  induction o with
  | nil => simp [options.set, options.get, hne2]
  | cons hd tl ih =>
    obtain ⟨k, x⟩ := hd
    by_cases hk : k = name
    · subst hk
      simp [options.set, options.get, hne2]
    · by_cases hko : k = other
      · subst hko
        simp [options.set, options.get, hk]
      · simp [options.set, options.get, hk, hko, ih]

theorem watchOptions_wait (waitIndex : Nat) (recursive : Bool) :
    (watchOptions waitIndex recursive).get "wait" = some (OptionValue.bool true) := by
  unfold watchOptions
  by_cases hw : waitIndex > 0 <;> cases recursive <;>
    simp [hw, options.set, options.get]

theorem watchOptions_waitIndex (waitIndex : Nat) (recursive : Bool) :
    (watchOptions waitIndex recursive).get "waitIndex"
      = if waitIndex = 0 then none else some (OptionValue.uint64 waitIndex) := by
  unfold watchOptions
  by_cases hw : waitIndex = 0
  · subst hw
    cases recursive <;> simp [options.set, options.get]
  · have hpos : waitIndex > 0 := Nat.pos_of_ne_zero hw
    cases recursive <;> simp [hw, hpos, options.set, options.get]

theorem watchOptions_recursive (waitIndex : Nat) (recursive : Bool) :
    (watchOptions waitIndex recursive).get "recursive"
      = if recursive then some (OptionValue.bool true) else none := by
  unfold watchOptions
  by_cases hw : waitIndex > 0 <;> cases recursive <;>
    simp [hw, options.set, options.get]

/-! ## One-shot watch -/

theorem watchOnce_ret {σ : Type} (c : World σ) (s : σ) (key : String) (waitIndex : Nat)
    (recursive : Bool) (stop : Option Chan) :
    (watchOnce c s key waitIndex recursive stop).ret
      = selectResult stop (c.race s) (goroutineSend (fetched c s key waitIndex recursive)) := rfl

theorem watchOnce_request {σ : Type} (c : World σ) (s : σ) (key : String) (waitIndex : Nat)
    (recursive : Bool) (stop : Option Chan) :
    (watchOnce c s key waitIndex recursive stop).request
      = (key, watchOptions waitIndex recursive) := rfl

/-- C1: when the fetch returns a response with a nil error, or a non-nil error,
`watchOnce` returns exactly one of: the response with a nil error, a nil
response with the fetch error, a nil response with `ErrWatchStoppedByUser`;
never a response together with an error, never nil together with nil. -/
theorem watchOnce_exactly_one_outcome {σ : Type} (c : World σ) (s : σ) (key : String)
    (waitIndex : Nat) (recursive : Bool) (stop : Option Chan)
    (hfetch : ((fetched c s key waitIndex recursive).1 ≠ none ∧
                (fetched c s key waitIndex recursive).2 = none) ∨
              (fetched c s key waitIndex recursive).2 ≠ none) :
    (EventOutcome (stopSelected stop (c.race s)) (fetched c s key waitIndex recursive)
        (watchOnce c s key waitIndex recursive stop).ret ∨
      FetchErrorOutcome (stopSelected stop (c.race s)) (fetched c s key waitIndex recursive)
        (watchOnce c s key waitIndex recursive stop).ret ∨
      StoppedOutcome (stopSelected stop (c.race s))
        (watchOnce c s key waitIndex recursive stop).ret) ∧
    ¬ (EventOutcome (stopSelected stop (c.race s)) (fetched c s key waitIndex recursive)
        (watchOnce c s key waitIndex recursive stop).ret ∧
      FetchErrorOutcome (stopSelected stop (c.race s)) (fetched c s key waitIndex recursive)
        (watchOnce c s key waitIndex recursive stop).ret) ∧
    ¬ (EventOutcome (stopSelected stop (c.race s)) (fetched c s key waitIndex recursive)
        (watchOnce c s key waitIndex recursive stop).ret ∧
      StoppedOutcome (stopSelected stop (c.race s))
        (watchOnce c s key waitIndex recursive stop).ret) ∧
    ¬ (FetchErrorOutcome (stopSelected stop (c.race s)) (fetched c s key waitIndex recursive)
        (watchOnce c s key waitIndex recursive stop).ret ∧
      StoppedOutcome (stopSelected stop (c.race s))
        (watchOnce c s key waitIndex recursive stop).ret) ∧
    ¬ ((watchOnce c s key waitIndex recursive stop).ret.1 ≠ none ∧
        (watchOnce c s key waitIndex recursive stop).ret.2 ≠ none) ∧
    ¬ ((watchOnce c s key waitIndex recursive stop).ret.1 = none ∧
        (watchOnce c s key waitIndex recursive stop).ret.2 = none) := by
  rw [watchOnce_ret]
  unfold selectResult goroutineSend
  generalize fetched c s key waitIndex recursive = fr at hfetch ⊢
  obtain ⟨r, e⟩ := fr
  generalize stopSelected stop (c.race s) = stopped
  cases stopped <;> cases r <;> cases e <;>
    simp [EventOutcome, FetchErrorOutcome, StoppedOutcome] at hfetch ⊢

theorem watchOnce_exactly_one_outcome_witness :
    (((fetched replay oneEvent "/a" 5 false).1 ≠ none ∧
        (fetched replay oneEvent "/a" 5 false).2 = none) ∨
      (fetched replay oneEvent "/a" 5 false).2 ≠ none) ∧
    ((EventOutcome (stopSelected (some ⟨0⟩) (replay.race oneEvent))
        (fetched replay oneEvent "/a" 5 false)
        (watchOnce replay oneEvent "/a" 5 false (some ⟨0⟩)).ret ∨
      FetchErrorOutcome (stopSelected (some ⟨0⟩) (replay.race oneEvent))
        (fetched replay oneEvent "/a" 5 false)
        (watchOnce replay oneEvent "/a" 5 false (some ⟨0⟩)).ret ∨
      StoppedOutcome (stopSelected (some ⟨0⟩) (replay.race oneEvent))
        (watchOnce replay oneEvent "/a" 5 false (some ⟨0⟩)).ret) ∧
    ¬ (EventOutcome (stopSelected (some ⟨0⟩) (replay.race oneEvent))
        (fetched replay oneEvent "/a" 5 false)
        (watchOnce replay oneEvent "/a" 5 false (some ⟨0⟩)).ret ∧
      FetchErrorOutcome (stopSelected (some ⟨0⟩) (replay.race oneEvent))
        (fetched replay oneEvent "/a" 5 false)
        (watchOnce replay oneEvent "/a" 5 false (some ⟨0⟩)).ret) ∧
    ¬ (EventOutcome (stopSelected (some ⟨0⟩) (replay.race oneEvent))
        (fetched replay oneEvent "/a" 5 false)
        (watchOnce replay oneEvent "/a" 5 false (some ⟨0⟩)).ret ∧
      StoppedOutcome (stopSelected (some ⟨0⟩) (replay.race oneEvent))
        (watchOnce replay oneEvent "/a" 5 false (some ⟨0⟩)).ret) ∧
    ¬ (FetchErrorOutcome (stopSelected (some ⟨0⟩) (replay.race oneEvent))
        (fetched replay oneEvent "/a" 5 false)
        (watchOnce replay oneEvent "/a" 5 false (some ⟨0⟩)).ret ∧
      StoppedOutcome (stopSelected (some ⟨0⟩) (replay.race oneEvent))
        (watchOnce replay oneEvent "/a" 5 false (some ⟨0⟩)).ret) ∧
    ¬ ((watchOnce replay oneEvent "/a" 5 false (some ⟨0⟩)).ret.1 ≠ none ∧
        (watchOnce replay oneEvent "/a" 5 false (some ⟨0⟩)).ret.2 ≠ none) ∧
    ¬ ((watchOnce replay oneEvent "/a" 5 false (some ⟨0⟩)).ret.1 = none ∧
        (watchOnce replay oneEvent "/a" 5 false (some ⟨0⟩)).ret.2 = none)) :=
  ⟨Or.inl ⟨by simp [fetched, replay, oneEvent], rfl⟩,
    watchOnce_exactly_one_outcome replay oneEvent "/a" 5 false (some ⟨0⟩)
      (Or.inl ⟨by simp [fetched, replay, oneEvent], rfl⟩)⟩

/-- C2 (as stated, refuted): a stop channel that fired before the fetch resolved
does not force `ErrWatchStoppedByUser` when both are ready at the `select` and
the fetch case is picked; and `ErrWatchStoppedByUser` is returned for a fetch
that resolved before the stop channel fired when the stop case is picked. -/
theorem watchOnce_cancellation_counterexample :
    (stopFiredBeforeFetch (replay.race [(Race.both true false, (some (event 6), none))]) = true ∧
      (watchOnce replay [(Race.both true false, (some (event 6), none))] "/a" 5 false
          (some ⟨0⟩)).ret = (some (event 6), none) ∧
      (watchOnce replay [(Race.both true false, (some (event 6), none))] "/a" 5 false
          (some ⟨0⟩)).ret ≠ (none, some Error.ErrWatchStoppedByUser)) ∧
    (stopFiredBeforeFetch (replay.race [(Race.both false true, (some (event 6), none))]) = false ∧
      (fetched replay [(Race.both false true, (some (event 6), none))] "/a" 5 false).2
        ≠ some Error.ErrWatchStoppedByUser ∧
      (watchOnce replay [(Race.both false true, (some (event 6), none))] "/a" 5 false
          (some ⟨0⟩)).ret = (none, some Error.ErrWatchStoppedByUser)) := by
  refine ⟨⟨rfl, rfl, by decide⟩, ⟨rfl, by decide, rfl⟩⟩

/-- C2 (amended): with a stop channel that is ready while the fetch is still
unresolved, `watchOnce` returns `(nil, ErrWatchStoppedByUser)` whatever the fetch
produces; when the stop channel and the fetch are both ready at the `select`,
whichever of them became ready first, it returns `(nil, ErrWatchStoppedByUser)`
if the `select` picks the stop case and the outcome of the fetch if it picks the
fetch; with a nil stop channel, or one that is not ready, it returns the outcome
of the fetch, which is not `ErrWatchStoppedByUser` unless the fetch itself
returned that value; and a returned `ErrWatchStoppedByUser` that the fetch did
not produce means that the stop channel is non-nil and that the `select` took
its stop case, the stop channel being ready. -/
theorem watchOnce_cancellation {σ : Type} (c : World σ) (s : σ) (key : String)
    (waitIndex : Nat) (recursive : Bool) (stop : Option Chan) :
    (stop ≠ none → c.race s = Race.stopFirst →
      (watchOnce c s key waitIndex recursive stop).ret
        = (none, some Error.ErrWatchStoppedByUser)) ∧
    (∀ stopFiredFirst pickStop, stop ≠ none → c.race s = Race.both stopFiredFirst pickStop →
      (watchOnce c s key waitIndex recursive stop).ret
        = (if pickStop then (none, some Error.ErrWatchStoppedByUser)
           else
            (match (fetched c s key waitIndex recursive).2 with
             | some err => (none, some err)
             | none => ((fetched c s key waitIndex recursive).1, none)))) ∧
    (stop = none ∨ c.race s = Race.fetchFirst →
      (watchOnce c s key waitIndex recursive stop).ret
          = (match (fetched c s key waitIndex recursive).2 with
             | some err => (none, some err)
             | none => ((fetched c s key waitIndex recursive).1, none)) ∧
        ((fetched c s key waitIndex recursive).2 ≠ some Error.ErrWatchStoppedByUser →
          (watchOnce c s key waitIndex recursive stop).ret.2
            ≠ some Error.ErrWatchStoppedByUser)) ∧
    ((watchOnce c s key waitIndex recursive stop).ret.2 = some Error.ErrWatchStoppedByUser →
      (fetched c s key waitIndex recursive).2 ≠ some Error.ErrWatchStoppedByUser →
      stop ≠ none ∧
        (c.race s = Race.stopFirst ∨ ∃ stopFiredFirst, c.race s = Race.both stopFiredFirst true))
    := by
  rw [watchOnce_ret]
  unfold selectResult goroutineSend stopSelected
  generalize fetched c s key waitIndex recursive = fr
  obtain ⟨r, e⟩ := fr
  generalize c.race s = race
  cases stop <;> rcases race with _ | _ | ⟨first, pick⟩ <;> cases e <;>
    (try cases pick) <;> simp

theorem watchOnce_cancellation_witness :
    (watchOnce replay [(Race.stopFirst, (some (event 6), none))] "/a" 5 false (some ⟨0⟩)).ret
        = (none, some Error.ErrWatchStoppedByUser) ∧
    (watchOnce replay [(Race.stopFirst, (none, some (Error.other "timeout")))] "/a" 5 false
        (some ⟨0⟩)).ret = (none, some Error.ErrWatchStoppedByUser) ∧
    (watchOnce replay [(Race.both true false, (none, some (Error.other "timeout")))] "/a" 5
        false (some ⟨0⟩)).ret = (none, some (Error.other "timeout")) ∧
    (watchOnce replay [(Race.stopFirst, (some (event 6), none))] "/a" 5 false none).ret
        = (some (event 6), none) :=
  ⟨(watchOnce_cancellation replay [(Race.stopFirst, (some (event 6), none))] "/a" 5 false
      (some ⟨0⟩)).1 (by decide) rfl,
    (watchOnce_cancellation replay [(Race.stopFirst, (none, some (Error.other "timeout")))] "/a"
      5 false (some ⟨0⟩)).1 (by decide) rfl,
    (watchOnce_cancellation replay [(Race.both true false, (none, some (Error.other "timeout")))]
      "/a" 5 false (some ⟨0⟩)).2.1 true false (by decide) rfl,
    ((watchOnce_cancellation replay [(Race.stopFirst, (some (event 6), none))] "/a" 5 false
      none).2.2.1 (Or.inl rfl)).1⟩

/-- C3: the options that `watchOnce` passes to the fetch have no `waitIndex`
entry when `waitIndex` is 0 and the entry `waitIndex` itself otherwise; the
fetch is called with exactly the recorded key and options. -/
theorem watchOnce_waitIndex_option {σ : Type} (c : World σ) (s : σ) (key : String)
    (waitIndex : Nat) (recursive : Bool) (stop : Option Chan) :
    (watchOnce c s key waitIndex recursive stop).request.2.get "waitIndex"
        = (if waitIndex = 0 then none else some (OptionValue.uint64 waitIndex)) ∧
    (watchOnce c s key waitIndex recursive stop).state
        = (c.get s (watchOnce c s key waitIndex recursive stop).request.1
            (watchOnce c s key waitIndex recursive stop).request.2).2 ∧
    fetched c s key waitIndex recursive
        = (c.get s (watchOnce c s key waitIndex recursive stop).request.1
            (watchOnce c s key waitIndex recursive stop).request.2).1 :=
  ⟨watchOptions_waitIndex waitIndex recursive, rfl, rfl⟩

/-- C7: when the `select` does not take the stop case, `watchOnce` returns the
response of the fetch untouched with a nil error if the fetch had no error
(whatever its `ModifiedIndex`), and a nil response with the very error of the
fetch otherwise. -/
theorem watchOnce_relays_fetch {σ : Type} (c : World σ) (s : σ) (key : String)
    (waitIndex : Nat) (recursive : Bool) (stop : Option Chan)
    (hrace : stopSelected stop (c.race s) = false) :
    (∀ resp, fetched c s key waitIndex recursive = (resp, none) →
      (watchOnce c s key waitIndex recursive stop).ret = (resp, none)) ∧
    (∀ resp err, fetched c s key waitIndex recursive = (resp, some err) →
      (watchOnce c s key waitIndex recursive stop).ret = (none, some err)) := by
  rw [watchOnce_ret]
  unfold selectResult goroutineSend
  rw [hrace]
  constructor
  · intro resp h
    rw [h]
    simp
  · intro resp err h
    rw [h]
    simp

theorem watchOnce_relays_fetch_witness :
    stopSelected (some ⟨0⟩) (replay.race [(Race.fetchFirst, (some (event 3), none))]) = false ∧
    (watchOnce replay [(Race.fetchFirst, (some (event 3), none))] "/a" 5 false (some ⟨0⟩)).ret
      = (some (event 3), none) :=
  ⟨rfl, (watchOnce_relays_fetch replay [(Race.fetchFirst, (some (event 3), none))] "/a" 5 false
      (some ⟨0⟩) rfl).1 (some (event 3)) rfl⟩

/-! ## The loop of continuous watch -/

theorem watchLoop_acc {σ : Type} (c : World σ) (key : String) (recursive : Bool)
    (stop : Option Chan) (fuel : Nat) :
    ∀ (s : σ) (waitIndex : Nat) (reqs : List Request) (outs : List FetchResult)
      (recv : List Response),
      watchLoop c key recursive stop fuel s waitIndex reqs outs recv
        = { result := (watchLoop c key recursive stop fuel s waitIndex [] [] []).result
            requests := reqs ++ (watchLoop c key recursive stop fuel s waitIndex [] [] []).requests
            oneShots := outs ++ (watchLoop c key recursive stop fuel s waitIndex [] [] []).oneShots
            received := recv ++ (watchLoop c key recursive stop fuel s waitIndex [] [] []).received
            state := (watchLoop c key recursive stop fuel s waitIndex [] [] []).state } := by
  induction fuel with
  | zero => intro s waitIndex reqs outs recv; simp [watchLoop]
  | succ n ih =>
    intro s waitIndex reqs outs recv
    unfold watchLoop
    cases h : (watchOnce c s key waitIndex recursive stop).ret.1 with
    | none => simp [h]
    | some resp =>
      simp only [h]
      rw [ih _ _ (reqs ++ _) (outs ++ _) (recv ++ _), ih _ _ ([] ++ _) ([] ++ _) ([] ++ _)]
      simp

theorem watchLoop_zero {σ : Type} (c : World σ) (key : String) (recursive : Bool)
    (stop : Option Chan) (s : σ) (waitIndex : Nat) :
    watchLoop c key recursive stop 0 s waitIndex [] [] []
      = { result := none, requests := [], oneShots := [], received := [], state := s } := rfl

theorem watchLoop_succ_none {σ : Type} (c : World σ) (key : String) (recursive : Bool)
    (stop : Option Chan) (fuel : Nat) (s : σ) (waitIndex : Nat)
    (h : (watchOnce c s key waitIndex recursive stop).ret.1 = none) :
    watchLoop c key recursive stop (fuel + 1) s waitIndex [] [] []
      = { result := some (none, (watchOnce c s key waitIndex recursive stop).ret.2)
          requests := [(watchOnce c s key waitIndex recursive stop).request]
          oneShots := [(watchOnce c s key waitIndex recursive stop).ret]
          received := []
          state := (watchOnce c s key waitIndex recursive stop).state } := by
  rw [watchLoop, h]
  simp

theorem watchLoop_succ_some {σ : Type} (c : World σ) (key : String) (recursive : Bool)
    (stop : Option Chan) (fuel : Nat) (s : σ) (waitIndex : Nat) (resp : Response)
    (h : (watchOnce c s key waitIndex recursive stop).ret.1 = some resp) :
    watchLoop c key recursive stop (fuel + 1) s waitIndex [] [] []
      = { result := (watchLoop c key recursive stop fuel
              (watchOnce c s key waitIndex recursive stop).state resp.ModifiedIndex [] [] []).result
          requests := (watchOnce c s key waitIndex recursive stop).request ::
            (watchLoop c key recursive stop fuel
              (watchOnce c s key waitIndex recursive stop).state resp.ModifiedIndex [] [] []).requests
          oneShots := (watchOnce c s key waitIndex recursive stop).ret ::
            (watchLoop c key recursive stop fuel
              (watchOnce c s key waitIndex recursive stop).state resp.ModifiedIndex [] [] []).oneShots
          received := resp ::
            (watchLoop c key recursive stop fuel
              (watchOnce c s key waitIndex recursive stop).state resp.ModifiedIndex [] [] []).received
          state := (watchLoop c key recursive stop fuel
              (watchOnce c s key waitIndex recursive stop).state resp.ModifiedIndex [] [] []).state } := by
  rw [watchLoop, h]
  simp only []
  rw [watchLoop_acc]
  simp

theorem watchOnce_some {σ : Type} (c : World σ) (s : σ) (key : String) (waitIndex : Nat)
    (recursive : Bool) (stop : Option Chan) (resp : Response)
    (h : (watchOnce c s key waitIndex recursive stop).ret.1 = some resp) :
    (watchOnce c s key waitIndex recursive stop).ret = (some resp, none) ∧
    fetched c s key waitIndex recursive = (some resp, none) := by
  rw [watchOnce_ret] at h ⊢
  unfold selectResult goroutineSend at h ⊢
  generalize fetched c s key waitIndex recursive = fr at h ⊢
  obtain ⟨r, e⟩ := fr
  generalize stopSelected stop (c.race s) = stopped at h ⊢
  cases stopped <;> cases e <;> simp_all

theorem watchLoop_requests {σ : Type} (c : World σ) (key : String) (recursive : Bool)
    (stop : Option Chan) (fuel : Nat) :
    ∀ (s : σ) (waitIndex : Nat),
      (watchLoop c key recursive stop fuel s waitIndex [] [] []).requests
        = ((waitIndex ::
              (watchLoop c key recursive stop fuel s waitIndex [] [] []).received.map
                Response.ModifiedIndex).take
            (watchLoop c key recursive stop fuel s waitIndex [] [] []).requests.length).map
          (fun cursor => (key, watchOptions cursor recursive)) := by
  induction fuel with
  | zero => intro s waitIndex; simp [watchLoop_zero]
  | succ n ih =>
    intro s waitIndex
    cases h : (watchOnce c s key waitIndex recursive stop).ret.1 with
    | none =>
      rw [watchLoop_succ_none c key recursive stop n s waitIndex h]
      simp [watchOnce_request]
    | some resp =>
      rw [watchLoop_succ_some c key recursive stop n s waitIndex resp h]
      simp only [List.map_cons, List.length_cons, List.take_succ_cons, watchOnce_request]
      congr 1
      exact ih _ _

theorem watchLoop_lengths {σ : Type} (c : World σ) (key : String) (recursive : Bool)
    (stop : Option Chan) (fuel : Nat) :
    ∀ (s : σ) (waitIndex : Nat),
      (watchLoop c key recursive stop fuel s waitIndex [] [] []).oneShots.length
          = (watchLoop c key recursive stop fuel s waitIndex [] [] []).requests.length ∧
      (watchLoop c key recursive stop fuel s waitIndex [] [] []).requests.length ≤ fuel ∧
      ((watchLoop c key recursive stop fuel s waitIndex [] [] []).result = none →
        (watchLoop c key recursive stop fuel s waitIndex [] [] []).received.length = fuel ∧
        (watchLoop c key recursive stop fuel s waitIndex [] [] []).requests.length = fuel) ∧
      ((watchLoop c key recursive stop fuel s waitIndex [] [] []).result ≠ none →
        (watchLoop c key recursive stop fuel s waitIndex [] [] []).requests.length
          = (watchLoop c key recursive stop fuel s waitIndex [] [] []).received.length + 1) := by
  induction fuel with
  | zero => intro s waitIndex; simp [watchLoop_zero]
  | succ n ih =>
    intro s waitIndex
    cases h : (watchOnce c s key waitIndex recursive stop).ret.1 with
    | none =>
      rw [watchLoop_succ_none c key recursive stop n s waitIndex h]
      simp
    | some resp =>
      rw [watchLoop_succ_some c key recursive stop n s waitIndex resp h]
      obtain ⟨h1, h2, h3, h4⟩ := ih (watchOnce c s key waitIndex recursive stop).state
        resp.ModifiedIndex
      simp only [List.length_cons]
      refine ⟨by omega, by omega, ?_, ?_⟩
      · intro hr
        have := h3 hr
        omega
      · intro hr
        have := h4 hr
        omega

theorem watchLoop_oneShots {σ : Type} (c : World σ) (key : String) (recursive : Bool)
    (stop : Option Chan) (fuel : Nat) :
    ∀ (s : σ) (waitIndex : Nat),
      (watchLoop c key recursive stop fuel s waitIndex [] [] []).oneShots
        = (watchLoop c key recursive stop fuel s waitIndex [] [] []).received.map
            (fun resp => (some resp, none)) ++
          (match (watchLoop c key recursive stop fuel s waitIndex [] [] []).result with
            | none => []
            | some ret => [ret]) ∧
      ∀ ret, (watchLoop c key recursive stop fuel s waitIndex [] [] []).result = some ret →
        ret.1 = none := by
  induction fuel with
  | zero => intro s waitIndex; simp [watchLoop_zero]
  | succ n ih =>
    intro s waitIndex
    cases h : (watchOnce c s key waitIndex recursive stop).ret.1 with
    | none =>
      rw [watchLoop_succ_none c key recursive stop n s waitIndex h]
      refine ⟨?_, ?_⟩
      · simp only [List.map_nil, List.nil_append]
        rw [← h]
      · intro ret hret
        simp only [Option.some.injEq] at hret
        rw [← hret]
    | some resp =>
      rw [watchLoop_succ_some c key recursive stop n s waitIndex resp h]
      obtain ⟨h1, h2⟩ := ih (watchOnce c s key waitIndex recursive stop).state
        resp.ModifiedIndex
      refine ⟨?_, h2⟩
      simp only [List.map_cons, List.cons_append]
      rw [← h1, (watchOnce_some c s key waitIndex recursive stop resp h).1]

theorem watchLoop_pairs {σ : Type} (c : World σ) (key : String) (recursive : Bool)
    (stop : Option Chan) (fuel : Nat) :
    ∀ (s : σ) (waitIndex : Nat),
      ∀ p ∈ (watchLoop c key recursive stop fuel s waitIndex [] [] []).requests.zip
          (watchLoop c key recursive stop fuel s waitIndex [] [] []).received,
        ∃ s1, (c.get s1 p.1.1 p.1.2).1 = (some p.2, none) := by
  induction fuel with
  | zero => intro s waitIndex; simp [watchLoop_zero]
  | succ n ih =>
    intro s waitIndex
    cases h : (watchOnce c s key waitIndex recursive stop).ret.1 with
    | none =>
      rw [watchLoop_succ_none c key recursive stop n s waitIndex h]
      simp
    | some resp =>
      rw [watchLoop_succ_some c key recursive stop n s waitIndex resp h]
      intro p hp
      simp only [List.zip_cons_cons, List.mem_cons] at hp
      rcases hp with hp | hp
      · subst hp
        exact ⟨s, (watchOnce_some c s key waitIndex recursive stop resp h).2⟩
      · exact ih _ _ p hp

theorem lowerBound_watchOptions (waitIndex : Nat) (recursive : Bool) :
    lowerBound (watchOptions waitIndex recursive) = waitIndex := by
  unfold lowerBound
  rw [watchOptions_waitIndex]
  by_cases hw : waitIndex = 0
  · simp [hw]
  · simp [hw]

theorem watchLoop_chain {σ : Type} (c : World σ) (key : String) (recursive : Bool)
    (stop : Option Chan) (fuel : Nat) :
    ∀ (s : σ) (waitIndex : Nat),
      (∀ p ∈ (watchLoop c key recursive stop fuel s waitIndex [] [] []).requests.zip
          (watchLoop c key recursive stop fuel s waitIndex [] [] []).received,
        lowerBound p.1.2 ≤ p.2.ModifiedIndex) →
      List.Chain (· ≤ ·) waitIndex
        ((watchLoop c key recursive stop fuel s waitIndex [] [] []).received.map
          Response.ModifiedIndex) := by
  induction fuel with
  | zero => intro s waitIndex _; simp [watchLoop_zero]
  | succ n ih =>
    intro s waitIndex
    cases h : (watchOnce c s key waitIndex recursive stop).ret.1 with
    | none =>
      rw [watchLoop_succ_none c key recursive stop n s waitIndex h]
      intro _
      simp
    | some resp =>
      rw [watchLoop_succ_some c key recursive stop n s waitIndex resp h]
      intro hp
      simp only [List.zip_cons_cons, List.mem_cons, forall_eq_or_imp, watchOnce_request,
        lowerBound_watchOptions] at hp
      simp only [List.map_cons, List.chain_cons]
      exact ⟨hp.1, ih _ _ hp.2⟩

theorem watch_some {σ : Type} (c : World σ) (fuel : Nat) (s : σ) (key : String)
    (waitIndex : Nat) (recursive : Bool) (ch : Chan) (stop : Option Chan) :
    watch c fuel s key waitIndex recursive (some ch) stop
      = watchLoop c key recursive stop fuel s waitIndex [] [] [] := rfl

/-! ## Continuous watch: the cursor -/

/-- C4 (as stated, refuted): after a delivered event with `ModifiedIndex` 0 the
next request carries no `waitIndex` entry at all, not the entry 0. -/
theorem watch_cursor_zero_counterexample :
    (watch replay 2 zeroThenSeven "/a" 5 false (some ⟨1⟩) none).received.map
        Response.ModifiedIndex = [0, 7] ∧
    (watch replay 2 zeroThenSeven "/a" 5 false (some ⟨1⟩) none).requests.map
        (fun q => q.2.get "waitIndex") = [some (OptionValue.uint64 5), none] ∧
    ¬ (∀ resp q, (watch replay 2 zeroThenSeven "/a" 5 false (some ⟨1⟩) none).received[0]?
          = some resp →
        (watch replay 2 zeroThenSeven "/a" 5 false (some ⟨1⟩) none).requests[1]? = some q →
        q.2.get "waitIndex" = some (OptionValue.uint64 resp.ModifiedIndex)) := by
  refine ⟨by decide, by decide, ?_⟩
  intro hall
  exact absurd (hall (event 0) ("/a", [("wait", OptionValue.bool true)]) (by decide) (by decide))
    (by decide)

/-- C4 (amended): in continuous mode the cursor of the first fetch is the start
cursor and the cursor of every later fetch is the `ModifiedIndex` of the event
delivered just before it; a request carries its cursor as `waitIndex` when the
cursor is positive and has no `waitIndex` entry when the cursor is 0. -/
theorem watch_cursor_feeds_forward {σ : Type} (c : World σ) (fuel : Nat) (s : σ)
    (key : String) (waitIndex : Nat) (recursive : Bool) (ch : Chan) (stop : Option Chan) :
    (watch c fuel s key waitIndex recursive (some ch) stop).requests.map
        (fun q => q.2.get "waitIndex")
      = ((waitIndex ::
            (watch c fuel s key waitIndex recursive (some ch) stop).received.map
              Response.ModifiedIndex).take
          (watch c fuel s key waitIndex recursive (some ch) stop).requests.length).map
        (fun cursor => if cursor = 0 then none else some (OptionValue.uint64 cursor)) ∧
    (watch c fuel s key waitIndex recursive (some ch) stop).received.length
      ≤ (watch c fuel s key waitIndex recursive (some ch) stop).requests.length ∧
    (watch c fuel s key waitIndex recursive (some ch) stop).requests.length
      ≤ (watch c fuel s key waitIndex recursive (some ch) stop).received.length + 1 := by
  have hreq := watchLoop_requests c key recursive stop fuel s waitIndex
  have hlen := watchLoop_lengths c key recursive stop fuel s waitIndex
  rw [watch_some]
  refine ⟨?_, ?_, ?_⟩
  · conv_lhs => rw [hreq]
    simp only [List.map_map]
    apply List.map_congr_left
    intro cursor _
    simp only [Function.comp]
    exact watchOptions_waitIndex cursor recursive
  · cases hres : (watchLoop c key recursive stop fuel s waitIndex [] [] []).result with
    | none => have := hlen.2.2.1 hres; omega
    | some ret => have := hlen.2.2.2 (by simp [hres]); omega
  · cases hres : (watchLoop c key recursive stop fuel s waitIndex [] [] []).result with
    | none => have := hlen.2.2.1 hres; omega
    | some ret => have := hlen.2.2.2 (by simp [hres]); omega

/-- C5 (as stated, refuted): two successful one-shot watches returning versions
6 and then 3 are both written to the receiver, in that order. -/
theorem watch_cursor_decreases_counterexample :
    (watch replay 2 sixThenThree "/a" 0 false (some ⟨1⟩) none).oneShots
      = [(some (event 6), none), (some (event 3), none)] ∧
    ¬ List.Pairwise (· ≤ ·)
      ((watch replay 2 sixThenThree "/a" 0 false (some ⟨1⟩) none).received.map
        Response.ModifiedIndex) := by
  refine ⟨by decide, ?_⟩
  have h : (watch replay 2 sixThenThree "/a" 0 false (some ⟨1⟩) none).received.map
      Response.ModifiedIndex = [6, 3] := by decide
  rw [h]
  decide

/-- C5 (amended): within one continuous watch the `ModifiedIndex` values written
to the receiver are non-decreasing, provided that every delivered event has a
`ModifiedIndex` at least the lower bound carried by the request that fetched it. -/
theorem watch_cursor_nondecreasing {σ : Type} (c : World σ) (fuel : Nat) (s : σ)
    (key : String) (waitIndex : Nat) (recursive : Bool) (ch : Chan) (stop : Option Chan)
    (hbound : ∀ p ∈ (watch c fuel s key waitIndex recursive (some ch) stop).requests.zip
        (watch c fuel s key waitIndex recursive (some ch) stop).received,
      lowerBound p.1.2 ≤ p.2.ModifiedIndex) :
    List.Pairwise (· ≤ ·)
      ((watch c fuel s key waitIndex recursive (some ch) stop).received.map
        Response.ModifiedIndex) := by
  rw [watch_some] at hbound ⊢
  have hchain := watchLoop_chain c key recursive stop fuel s waitIndex hbound
  exact (List.pairwise_cons.mp (List.chain_iff_pairwise.mp hchain)).2

theorem watch_cursor_nondecreasing_witness :
    (∀ p ∈ (watch replay 3 sixSixNine "/a" 5 false (some ⟨1⟩) none).requests.zip
        (watch replay 3 sixSixNine "/a" 5 false (some ⟨1⟩) none).received,
      lowerBound p.1.2 ≤ p.2.ModifiedIndex) ∧
    List.Pairwise (· ≤ ·)
      ((watch replay 3 sixSixNine "/a" 5 false (some ⟨1⟩) none).received.map
        Response.ModifiedIndex) :=
  ⟨by decide, watch_cursor_nondecreasing replay 3 sixSixNine "/a" 5 false ⟨1⟩ none (by decide)⟩

theorem counterStore_honours (s : Nat) (key : String) (opts : options) (bound : Nat)
    (resp : Response) (hopt : opts.get "waitIndex" = some (OptionValue.uint64 bound))
    (hget : (counterStore.get s key opts).1 = (some resp, none)) :
    bound ≤ resp.ModifiedIndex := by
  simp only [counterStore, lowerBound, hopt, Prod.mk.injEq, Option.some.injEq, and_true] at hget
  rw [← hget]
  simp [event]

/-- C10: if every event the fetch returns for a request carrying `waitIndex = w`
has `ModifiedIndex` at least `w`, then in every run of continuous watch the
`ModifiedIndex` values written to the receiver are non-decreasing and each of
them (the first included) is at least the start cursor; a start cursor or a
delivered `ModifiedIndex` of 0 is covered. -/
theorem watch_nondecreasing_of_honoured {σ : Type} (c : World σ) (fuel : Nat) (s : σ)
    (key : String) (waitIndex : Nat) (recursive : Bool) (ch : Chan) (stop : Option Chan)
    (hon : ∀ (s1 : σ) (key1 : String) (opts : options) (bound : Nat) (resp : Response),
      opts.get "waitIndex" = some (OptionValue.uint64 bound) →
      (c.get s1 key1 opts).1 = (some resp, none) → bound ≤ resp.ModifiedIndex) :
    List.Pairwise (· ≤ ·)
      ((watch c fuel s key waitIndex recursive (some ch) stop).received.map
        Response.ModifiedIndex) ∧
    (∀ resp ∈ (watch c fuel s key waitIndex recursive (some ch) stop).received,
      waitIndex ≤ resp.ModifiedIndex) ∧
    (0 < waitIndex → ∀ resp,
      (watch c fuel s key waitIndex recursive (some ch) stop).received.head? = some resp →
      waitIndex ≤ resp.ModifiedIndex) := by
  rw [watch_some]
  have hpairs := watchLoop_pairs c key recursive stop fuel s waitIndex
  have hchain := watchLoop_chain c key recursive stop fuel s waitIndex (by
    intro p hp
    obtain ⟨s1, hs1⟩ := hpairs p hp
    unfold lowerBound
    cases hopt : p.1.2.get "waitIndex" with
    | none => simp
    | some v =>
      cases v with
      | bool b => simp
      | uint64 bound => exact hon s1 p.1.1 p.1.2 bound p.2 hopt hs1)
  have hpw := List.pairwise_cons.mp (List.chain_iff_pairwise.mp hchain)
  have hall : ∀ resp ∈ (watchLoop c key recursive stop fuel s waitIndex [] [] []).received,
      waitIndex ≤ resp.ModifiedIndex := by
    intro resp hresp
    exact hpw.1 resp.ModifiedIndex (List.mem_map_of_mem _ hresp)
  refine ⟨hpw.2, hall, ?_⟩
  intro _ resp hhead
  exact hall resp (List.mem_of_mem_head? hhead)

theorem watch_nondecreasing_of_honoured_witness :
    (∀ (s1 : Nat) (key1 : String) (opts : options) (bound : Nat) (resp : Response),
      opts.get "waitIndex" = some (OptionValue.uint64 bound) →
      (counterStore.get s1 key1 opts).1 = (some resp, none) → bound ≤ resp.ModifiedIndex) ∧
    (watch counterStore 3 0 "/a" 0 false (some ⟨1⟩) none).received.map Response.ModifiedIndex
      = [0, 1, 2] ∧
    (watch counterStore 3 0 "/a" 0 false (some ⟨1⟩) none).requests.map
        (fun q => q.2.get "waitIndex") = [none, none, some (OptionValue.uint64 1)] ∧
    List.Pairwise (· ≤ ·)
      ((watch counterStore 3 0 "/a" 0 false (some ⟨1⟩) none).received.map
        Response.ModifiedIndex) :=
  ⟨counterStore_honours, by decide, by decide,
    (watch_nondecreasing_of_honoured counterStore 3 0 "/a" 0 false ⟨1⟩ none
      counterStore_honours).1⟩

/-! ## Continuous watch: the first failure ends the loop -/

theorem watchOnce_replay (step : Race × FetchResult) (tail : List (Race × FetchResult))
    (key : String) (waitIndex : Nat) (recursive : Bool) (stop : Option Chan) :
    (watchOnce replay (step :: tail) key waitIndex recursive stop).ret
        = selectResult stop step.1 (goroutineSend step.2) ∧
    (watchOnce replay (step :: tail) key waitIndex recursive stop).state = tail :=
  ⟨rfl, rfl⟩

theorem watchLoop_replay_failure (key : String) (recursive : Bool) (stop : Option Chan)
    (failing : Race × FetchResult) (rest : List (Race × FetchResult)) (err : Option Error)
    (hfail : selectResult stop failing.1 (goroutineSend failing.2) = (none, err))
    (pre : List (Race × FetchResult)) :
    ∀ (evs : List Response) (waitIndex fuel : Nat),
      pre.map (fun step => selectResult stop step.1 (goroutineSend step.2))
        = evs.map (fun resp => (some resp, none)) →
      pre.length < fuel →
      (watchLoop replay key recursive stop fuel (pre ++ failing :: rest) waitIndex
          [] [] []).result = some (none, err) ∧
      (watchLoop replay key recursive stop fuel (pre ++ failing :: rest) waitIndex
          [] [] []).received = evs ∧
      (watchLoop replay key recursive stop fuel (pre ++ failing :: rest) waitIndex
          [] [] []).oneShots = evs.map (fun resp => (some resp, none)) ++ [(none, err)] ∧
      (watchLoop replay key recursive stop fuel (pre ++ failing :: rest) waitIndex
          [] [] []).requests.length = pre.length + 1 ∧
      (watchLoop replay key recursive stop fuel (pre ++ failing :: rest) waitIndex
          [] [] []).state = rest := by
  induction pre with
  | nil =>
    intro evs waitIndex fuel hpre hfuel
    obtain ⟨n, rfl⟩ : ∃ n, fuel = n + 1 := ⟨fuel - 1, by simp at hfuel; omega⟩
    have hevs : evs = [] := by
      cases evs with
      | nil => rfl
      | cons e es => simp at hpre
    subst hevs
    have hret := (watchOnce_replay failing rest key waitIndex recursive stop).1
    rw [hfail] at hret
    have hnone : (watchOnce replay (failing :: rest) key waitIndex recursive stop).ret.1 = none := by
      rw [hret]
    simp only [List.nil_append]
    rw [watchLoop_succ_none replay key recursive stop n _ waitIndex hnone, hret]
    simp [(watchOnce_replay failing rest key waitIndex recursive stop).2]
  | cons step pre1 ih =>
    intro evs waitIndex fuel hpre hfuel
    obtain ⟨n, rfl⟩ : ∃ n, fuel = n + 1 := ⟨fuel - 1, by simp at hfuel; omega⟩
    cases evs with
    | nil => simp at hpre
    | cons e es =>
      simp only [List.map_cons, List.cons.injEq] at hpre
      have hret := (watchOnce_replay step (pre1 ++ failing :: rest) key waitIndex recursive stop).1
      rw [hpre.1] at hret
      have hsome : (watchOnce replay (step :: (pre1 ++ failing :: rest)) key waitIndex recursive
          stop).ret.1 = some e := by rw [hret]
      have hlt : pre1.length < n := by simp at hfuel; omega
      obtain ⟨h1, h2, h3, h4, h5⟩ := ih es e.ModifiedIndex n hpre.2 hlt
      simp only [List.cons_append]
      rw [watchLoop_succ_some replay key recursive stop n _ waitIndex e hsome, hret,
        (watchOnce_replay step (pre1 ++ failing :: rest) key waitIndex recursive stop).2]
      simp [h1, h2, h3, h4, h5]

/-- C6: in continuous mode, when the first `k` one-shot watches deliver events
and the next one yields no event, the loop (given more than `k` rounds of fuel)
returns a nil response with exactly that one-shot watch's error, issues no
fetch after it (`k + 1` requests, the rest of the script untouched), and the
receiver got exactly the `k` events, each once and in order. -/
theorem watch_stops_at_first_failure (key : String) (waitIndex : Nat) (recursive : Bool)
    (ch : Chan) (stop : Option Chan) (pre : List (Race × FetchResult)) (evs : List Response)
    (failing : Race × FetchResult) (rest : List (Race × FetchResult)) (err : Option Error)
    (fuel : Nat)
    (hpre : pre.map (fun step => selectResult stop step.1 (goroutineSend step.2))
      = evs.map (fun resp => (some resp, none)))
    (hfail : selectResult stop failing.1 (goroutineSend failing.2) = (none, err))
    (hfuel : pre.length < fuel) :
    (watch replay fuel (pre ++ failing :: rest) key waitIndex recursive (some ch) stop).result
      = some (none, err) ∧
    (watch replay fuel (pre ++ failing :: rest) key waitIndex recursive (some ch) stop).received
      = evs ∧
    (watch replay fuel (pre ++ failing :: rest) key waitIndex recursive (some ch) stop).oneShots
      = evs.map (fun resp => (some resp, none)) ++ [(none, err)] ∧
    (watch replay fuel (pre ++ failing :: rest) key waitIndex recursive (some ch)
      stop).requests.length = pre.length + 1 ∧
    (watch replay fuel (pre ++ failing :: rest) key waitIndex recursive (some ch) stop).state
      = rest := by
  rw [watch_some]
  exact watchLoop_replay_failure key recursive stop failing rest err hfail pre evs waitIndex fuel
    hpre hfuel

theorem watch_stops_at_first_failure_witness :
    ([(Race.fetchFirst, (some (event 6), none)), (Race.both true false, (some (event 8), none))].map
        (fun step => selectResult (some ⟨2⟩) step.1 (goroutineSend step.2))
      = [event 6, event 8].map (fun resp => (some resp, none))) ∧
    selectResult (some ⟨2⟩) Race.fetchFirst
        (goroutineSend (none, some (Error.other "connection reset")))
      = (none, some (Error.other "connection reset")) ∧
    (watch replay 5
        ([(Race.fetchFirst, (some (event 6), none)), (Race.both true false, (some (event 8), none))]
          ++ (Race.fetchFirst, (none, some (Error.other "connection reset")))
            :: [(Race.fetchFirst, (some (event 9), none))])
        "/a" 0 true (some ⟨1⟩) (some ⟨2⟩)).result
      = some (none, some (Error.other "connection reset")) ∧
    (watch replay 5
        ([(Race.fetchFirst, (some (event 6), none)), (Race.both true false, (some (event 8), none))]
          ++ (Race.fetchFirst, (none, some (Error.other "connection reset")))
            :: [(Race.fetchFirst, (some (event 9), none))])
        "/a" 0 true (some ⟨1⟩) (some ⟨2⟩)).received
      = [event 6, event 8] :=
  ⟨by decide, by decide,
    (watch_stops_at_first_failure "/a" 0 true ⟨1⟩ (some ⟨2⟩)
      [(Race.fetchFirst, (some (event 6), none)), (Race.both true false, (some (event 8), none))]
      [event 6, event 8] (Race.fetchFirst, (none, some (Error.other "connection reset")))
      [(Race.fetchFirst, (some (event 9), none))] (some (Error.other "connection reset")) 5
      (by decide) (by decide) (by decide)).1,
    (watch_stops_at_first_failure "/a" 0 true ⟨1⟩ (some ⟨2⟩)
      [(Race.fetchFirst, (some (event 6), none)), (Race.both true false, (some (event 8), none))]
      [event 6, event 8] (Race.fetchFirst, (none, some (Error.other "connection reset")))
      [(Race.fetchFirst, (some (event 9), none))] (some (Error.other "connection reset")) 5
      (by decide) (by decide) (by decide)).2.1⟩

/-! ## The entry points -/

/-- C8: `Watch` and `WatchAll` are `watch` with `recursive` false and true. With a
nil receiver the call is one `watchOnce` call: it returns what `watchOnce`
returns, issues that one request and writes to no channel. With a receiver, the
values returned by the one-shot watches are the delivered events, each with a
nil error, in the order they were written to the receiver, followed (once the
call has returned) by the returned pair, whose response is nil. -/
theorem watch_mode_dispatch {σ : Type} (c : World σ) (fuel : Nat) (s : σ) (key : String)
    (waitIndex : Nat) (stop : Option Chan) :
    (∀ receiver, Watch c fuel s key waitIndex receiver stop
        = watch c fuel s key waitIndex false receiver stop) ∧
    (∀ receiver, WatchAll c fuel s key waitIndex receiver stop
        = watch c fuel s key waitIndex true receiver stop) ∧
    (∀ recursive,
      (watch c fuel s key waitIndex recursive none stop).result
          = some (watchOnce c s key waitIndex recursive stop).ret ∧
        (watch c fuel s key waitIndex recursive none stop).requests
          = [(watchOnce c s key waitIndex recursive stop).request] ∧
        (watch c fuel s key waitIndex recursive none stop).oneShots
          = [(watchOnce c s key waitIndex recursive stop).ret] ∧
        (watch c fuel s key waitIndex recursive none stop).received = [] ∧
        (watch c fuel s key waitIndex recursive none stop).state
          = (watchOnce c s key waitIndex recursive stop).state) ∧
    (∀ recursive ch,
      (watch c fuel s key waitIndex recursive (some ch) stop).oneShots
          = (watch c fuel s key waitIndex recursive (some ch) stop).received.map
              (fun resp => (some resp, none)) ++
            (match (watch c fuel s key waitIndex recursive (some ch) stop).result with
              | none => []
              | some ret => [ret]) ∧
        (∀ ret, (watch c fuel s key waitIndex recursive (some ch) stop).result = some ret →
          ret.1 = none ∧
          (watch c fuel s key waitIndex recursive (some ch) stop).oneShots.getLast? = some ret) ∧
        (watch c fuel s key waitIndex recursive (some ch) stop).oneShots.length
          = (watch c fuel s key waitIndex recursive (some ch) stop).requests.length) := by
  refine ⟨fun _ => rfl, fun _ => rfl, fun _ => ⟨rfl, rfl, rfl, rfl, rfl⟩, ?_⟩
  intro recursive ch
  rw [watch_some]
  obtain ⟨h1, h2⟩ := watchLoop_oneShots c key recursive stop fuel s waitIndex
  refine ⟨h1, ?_, (watchLoop_lengths c key recursive stop fuel s waitIndex).1⟩
  intro ret hret
  refine ⟨h2 ret hret, ?_⟩
  rw [h1, hret]
  simp

theorem watch_requests {σ : Type} (c : World σ) (fuel : Nat) (s : σ) (key : String)
    (waitIndex : Nat) (recursive : Bool) (receiver : Option Chan) (stop : Option Chan) :
    (watch c fuel s key waitIndex recursive receiver stop).requests
      = ((waitIndex ::
            (watch c fuel s key waitIndex recursive receiver stop).received.map
              Response.ModifiedIndex).take
          (watch c fuel s key waitIndex recursive receiver stop).requests.length).map
        (fun cursor => (key, watchOptions cursor recursive)) := by
  cases receiver with
  | none => simp [watch, watchOnce_request]
  | some ch =>
    rw [watch_some]
    exact watchLoop_requests c key recursive stop fuel s waitIndex

theorem watch_requests_mem {σ : Type} (c : World σ) (fuel : Nat) (s : σ) (key : String)
    (waitIndex : Nat) (recursive : Bool) (receiver : Option Chan) (stop : Option Chan)
    (q : Request) (hq : q ∈ (watch c fuel s key waitIndex recursive receiver stop).requests) :
    ∃ cursor, q = (key, watchOptions cursor recursive) := by
  rw [watch_requests] at hq
  obtain ⟨cursor, _, hcur⟩ := List.mem_map.mp hq
  exact ⟨cursor, hcur.symm⟩

theorem watch_requests_head {σ : Type} (c : World σ) (fuel : Nat) (s : σ) (key : String)
    (waitIndex : Nat) (recursive : Bool) (receiver : Option Chan) (stop : Option Chan) :
    (watch c fuel s key waitIndex recursive receiver stop).requests.head?
      = if receiver = none ∨ 0 < fuel then some (key, watchOptions waitIndex recursive)
        else none := by
  cases receiver with
  | none => simp [watch, watchOnce_request]
  | some ch =>
    rw [watch_some]
    cases fuel with
    | zero => simp [watchLoop_zero]
    | succ n =>
      cases h : (watchOnce c s key waitIndex recursive stop).ret.1 with
      | none =>
        rw [watchLoop_succ_none c key recursive stop n s waitIndex h]
        simp [watchOnce_request]
      | some resp =>
        rw [watchLoop_succ_some c key recursive stop n s waitIndex resp h]
        simp [watchOnce_request]

theorem watchOptions_true (waitIndex : Nat) :
    watchOptions waitIndex true
      = (watchOptions waitIndex false).set "recursive" (OptionValue.bool true) := by
  simp [watchOptions]

/-- C9: every request issued by `Watch` or `WatchAll`, in one-shot mode and in
every round of continuous mode, has the caller's key and `wait = true`; it has
no `recursive` entry when issued by `Watch` and the entry `recursive = true`
when issued by `WatchAll`. A request of `WatchAll` is the request `Watch` builds
for the same key and cursor with the `recursive` entry added, every other entry
being the same; the first request of the two calls (the only one in one-shot
mode) is built from the same cursor, and so is every later one as long as the
two calls were delivered the same versions. -/
theorem watch_requests_shape {σ : Type} (c : World σ) (fuel : Nat) (s : σ) (key : String)
    (waitIndex : Nat) (receiver : Option Chan) (stop : Option Chan) :
    (∀ q ∈ (Watch c fuel s key waitIndex receiver stop).requests,
      q.1 = key ∧ q.2.get "wait" = some (OptionValue.bool true) ∧ q.2.get "recursive" = none) ∧
    (∀ q ∈ (WatchAll c fuel s key waitIndex receiver stop).requests,
      q.1 = key ∧ q.2.get "wait" = some (OptionValue.bool true) ∧
        q.2.get "recursive" = some (OptionValue.bool true)) ∧
    (Watch c fuel s key waitIndex receiver stop).requests
      = ((waitIndex ::
            (Watch c fuel s key waitIndex receiver stop).received.map
              Response.ModifiedIndex).take
          (Watch c fuel s key waitIndex receiver stop).requests.length).map
        (fun cursor => (key, watchOptions cursor false)) ∧
    (WatchAll c fuel s key waitIndex receiver stop).requests
      = ((waitIndex ::
            (WatchAll c fuel s key waitIndex receiver stop).received.map
              Response.ModifiedIndex).take
          (WatchAll c fuel s key waitIndex receiver stop).requests.length).map
        (fun cursor =>
          (key, (watchOptions cursor false).set "recursive" (OptionValue.bool true))) ∧
    (∀ (cursor : Nat) (name : String), name ≠ "recursive" →
      ((watchOptions cursor false).set "recursive" (OptionValue.bool true)).get name
        = (watchOptions cursor false).get name) ∧
    (WatchAll c fuel s key waitIndex receiver stop).requests.head?
      = (Watch c fuel s key waitIndex receiver stop).requests.head?.map
          (fun q => (q.1, q.2.set "recursive" (OptionValue.bool true))) ∧
    (WatchAll c fuel s key waitIndex none stop).requests
      = (Watch c fuel s key waitIndex none stop).requests.map
          (fun q => (q.1, q.2.set "recursive" (OptionValue.bool true))) ∧
    ((WatchAll c fuel s key waitIndex receiver stop).received.map Response.ModifiedIndex
        = (Watch c fuel s key waitIndex receiver stop).received.map Response.ModifiedIndex →
      (WatchAll c fuel s key waitIndex receiver stop).requests.length
        = (Watch c fuel s key waitIndex receiver stop).requests.length →
      (WatchAll c fuel s key waitIndex receiver stop).requests
        = (Watch c fuel s key waitIndex receiver stop).requests.map
            (fun q => (q.1, q.2.set "recursive" (OptionValue.bool true)))) := by
  unfold Watch WatchAll
  refine ⟨?_, ?_, watch_requests c fuel s key waitIndex false receiver stop, ?_, ?_, ?_, ?_, ?_⟩
  · intro q hq
    obtain ⟨cursor, rfl⟩ := watch_requests_mem c fuel s key waitIndex false receiver stop q hq
    exact ⟨rfl, watchOptions_wait cursor false, by simp [watchOptions_recursive]⟩
  · intro q hq
    obtain ⟨cursor, rfl⟩ := watch_requests_mem c fuel s key waitIndex true receiver stop q hq
    exact ⟨rfl, watchOptions_wait cursor true, by simp [watchOptions_recursive]⟩
  · have h := watch_requests c fuel s key waitIndex true receiver stop
    simp only [watchOptions_true] at h
    exact h
  · intro cursor name hname
    exact options_get_set_other _ "recursive" name _ hname
  · rw [watch_requests_head, watch_requests_head]
    by_cases h : receiver = none ∨ 0 < fuel
    · simp [h, watchOptions_true]
    · simp [h]
  · simp [watch, watchOnce_request, watchOptions_true]
  · intro hrecv hlen
    have hall := watch_requests c fuel s key waitIndex true receiver stop
    have hone := watch_requests c fuel s key waitIndex false receiver stop
    rw [hall, hone, hrecv, hlen]
    simp [List.map_map, Function.comp_def, watchOptions_true]

end Etcd
